import Mathlib

/-!
Shallow embedding of the `quickjs-go` binding layer (`context.go`) and proofs
of the specification claims about it.

The foreign QuickJS engine is out of scope for the repository itself: it is
reached only through the C ABI (`JS_Eval`, `JS_ReadObject`, ...).  We model it
as an abstract record of pure functions (`Engine`), so every theorem about a
pipeline function quantifies over the engine's behaviour; the Go control flow
of `context.go` is what is embedded faithfully.
-/

namespace QuickJS

/-- Tags of foreign JSValues, mirroring the QuickJS tagged union.  The Go code
inspects only the exception tag (via `IsException`) and the module tag (via
`ValueGetTag(..) != JS_TAG_MODULE`). -/
inductive JSTag where
  | null
  | undefined
  | boolean
  | number
  | string
  | object
  | exception
  | module
  | other (n : Nat)
deriving DecidableEq, Repr

/-- A foreign engine value: a tag plus an opaque payload distinguishing
individual values. -/
structure JSValue where
  tag : JSTag
  payload : Nat
deriving DecidableEq, Repr

/-- `JS_NewNull()` as used by `ctx.Null()`. -/
def nullValue : JSValue := ⟨JSTag.null, 0⟩

/-- `C.JS_EVAL_TYPE_GLOBAL` (value 0 in quickjs.h). -/
def JS_EVAL_TYPE_GLOBAL : Nat := 0

/-- `C.JS_EVAL_TYPE_MODULE` (value 1 in quickjs.h). -/
def JS_EVAL_TYPE_MODULE : Nat := 1

/-- `C.JS_EVAL_FLAG_STRICT` (1 shifted left 3 in quickjs.h). -/
def JS_EVAL_FLAG_STRICT : Nat := 8

/-- `C.JS_EVAL_FLAG_STRIP` (1 shifted left 4 in quickjs.h). -/
def JS_EVAL_FLAG_STRIP : Nat := 16

/-- `C.JS_EVAL_FLAG_COMPILE_ONLY` (1 shifted left 5 in quickjs.h). -/
def JS_EVAL_FLAG_COMPILE_ONLY : Nat := 32

/-- The abstract foreign engine: each C ABI entry point the embedded Go code
calls becomes a field.  A concrete `Engine` value fixes one possible engine
behaviour; theorems quantify over all of them. -/
structure Engine where
  /-- `C.JS_Eval(ctx, code, len, filename, flags)`. -/
  jsEval : String → String → Nat → JSValue
  /-- `C.JS_DetectModule(code, len) != 0`. -/
  jsDetectModule : String → Bool
  /-- `C.js_std_await(ctx, v)`. -/
  jsStdAwait : JSValue → JSValue
  /-- `C.JS_ResolveModule(ctx, v)` result code. -/
  jsResolveModule : JSValue → Int
  /-- `C.JS_ReadObject(ctx, buf, len, JS_READ_OBJ_BYTECODE)`. -/
  jsReadObject : List Nat → JSValue
  /-- `C.JS_EvalFunction(ctx, obj)`. -/
  jsEvalFunction : JSValue → JSValue
  /-- The size written by `C.JS_WriteObject(ctx, &kSize, v, JS_WRITE_OBJ_BYTECODE)`,
  as read back through the `C.int(kSize)` cast. -/
  jsWriteObjectSize : JSValue → Int
  /-- The memory behind the pointer returned by `C.JS_WriteObject`: byte at
  each offset.  `C.GoBytes(ptr, n)` reads the first `n` of these. -/
  jsWriteObjectMem : JSValue → Nat → Nat
  /-- `C.JS_NewArrayBufferCopy(ctx, &data[0], len)`. -/
  jsNewArrayBufferCopy : List Nat → JSValue
  /-- The message of the context's pending exception, as fetched and converted
  by `ctx.Exception()` (the Exception Bridge, `JS_GetException` + `val.Error()`). -/
  pendingExc : String

/-- Host-visible errors returned by the pipeline, mirroring §7 of the spec:
engine exceptions surfaced through the Exception Bridge, fixed-message shape
errors, and pass-through host I/O errors. -/
inductive HostError where
  /-- `ctx.Exception()`: the pending engine exception converted to a host error. -/
  | exceptionBridge (msg : String)
  /-- `fmt.Errorf("not a module")`. -/
  | notAModule
  /-- `fmt.Errorf("resolve module failed")`. -/
  | resolveModuleFailed
  /-- An `os.ReadFile` error passed through unchanged. -/
  | ioError (e : String)
deriving DecidableEq, Repr

/-- The `EvalOptions` struct of `context.go`. -/
structure EvalOptions where
  js_eval_type_global : Bool
  js_eval_type_module : Bool
  js_eval_flag_strict : Bool
  js_eval_flag_strip : Bool
  js_eval_flag_compile_only : Bool
  filename : String
  await : Bool
deriving DecidableEq, Repr

/-- `type EvalOption func(*EvalOptions)`: a mutator of the options struct. -/
def EvalOption : Type := EvalOptions → EvalOptions

/-- `func EvalFlagGlobal(global bool) EvalOption`. -/
def EvalFlagGlobal (global : Bool) : EvalOption :=
  fun flags => { flags with js_eval_type_global := global }

/-- `func EvalFlagModule(module bool) EvalOption`. -/
def EvalFlagModule (module : Bool) : EvalOption :=
  fun flags => { flags with js_eval_type_module := module }

/-- `func EvalFlagStrict(strict bool) EvalOption`. -/
def EvalFlagStrict (strict : Bool) : EvalOption :=
  fun flags => { flags with js_eval_flag_strict := strict }

/-- `func EvalFlagStrip(strip bool) EvalOption`. -/
def EvalFlagStrip (strip : Bool) : EvalOption :=
  fun flags => { flags with js_eval_flag_strip := strip }

/-- `func EvalFlagCompileOnly(compileOnly bool) EvalOption`. -/
def EvalFlagCompileOnly (compileOnly : Bool) : EvalOption :=
  fun flags => { flags with js_eval_flag_compile_only := compileOnly }

/-- `func EvalFileName(filename string) EvalOption`. -/
def EvalFileName (filename : String) : EvalOption :=
  fun flags => { flags with filename := filename }

/-- `func EvalAwait(await bool) EvalOption`. -/
def EvalAwait (await : Bool) : EvalOption :=
  fun flags => { flags with await := await }

/-- The `for _, fn := range opts { fn(&options) }` loop: apply each option
mutator in order. -/
def applyOpts (init : EvalOptions) (opts : List EvalOption) : EvalOptions :=
  opts.foldl (fun o f => f o) init

/-- The defaults `Eval` starts from: `EvalOptions{js_eval_type_global: true,
filename: "<input>", await: false}` (remaining fields are Go zero values). -/
def evalDefaults : EvalOptions :=
  { js_eval_type_global := true
    js_eval_type_module := false
    js_eval_flag_strict := false
    js_eval_flag_strip := false
    js_eval_flag_compile_only := false
    filename := "<input>"
    await := false }

/-- The Go zero value `EvalOptions{}` that `CompileFile` folds its options
over (all fields false or empty). -/
def zeroOptions : EvalOptions :=
  { js_eval_type_global := false
    js_eval_type_module := false
    js_eval_flag_strict := false
    js_eval_flag_strip := false
    js_eval_flag_compile_only := false
    filename := ""
    await := false }

/-- The `cFlag` accumulation in `Eval`: OR in each flag constant that the
corresponding option field requests. -/
def evalFlags (o : EvalOptions) : Nat :=
  let cFlag := 0
  let cFlag := if o.js_eval_type_global then cFlag ||| JS_EVAL_TYPE_GLOBAL else cFlag
  let cFlag := if o.js_eval_type_module then cFlag ||| JS_EVAL_TYPE_MODULE else cFlag
  let cFlag := if o.js_eval_flag_strict then cFlag ||| JS_EVAL_FLAG_STRICT else cFlag
  let cFlag := if o.js_eval_flag_strip then cFlag ||| JS_EVAL_FLAG_STRIP else cFlag
  if o.js_eval_flag_compile_only then cFlag ||| JS_EVAL_FLAG_COMPILE_ONLY else cFlag

/-- The flag word `Eval` actually passes to `JS_Eval`: the option-derived
flags, with `JS_EVAL_TYPE_MODULE` additionally ORed in when
`JS_DetectModule` reports module syntax in the source. -/
def evalEffectiveFlag (E : Engine) (code : String) (o : EvalOptions) : Nat :=
  if E.jsDetectModule code then evalFlags o ||| JS_EVAL_TYPE_MODULE else evalFlags o

/-- The `val` computed inside `Eval` before its exception check: apply the
options over the defaults, build the flag word (module syntax detection
forcing the module flag), call `JS_Eval` with the effective filename and
flags, passing the result through `js_std_await` when `await` is set. -/
def evalRawValue (E : Engine) (code : String) (opts : List EvalOption) : JSValue :=
  let options := applyOpts evalDefaults opts
  let cFlag := evalEffectiveFlag E code options
  if options.await then E.jsStdAwait (E.jsEval code options.filename cFlag)
  else E.jsEval code options.filename cFlag

/-- `func (ctx *Context) Eval(code string, opts ...EvalOption) (Value, error)`:
compute the evaluation result (`evalRawValue`) and convert an
exception-tagged result through the Exception Bridge (`ctx.Exception()`). -/
def ContextEval (E : Engine) (code : String) (opts : List EvalOption) :
    JSValue × Option HostError :=
  let val := evalRawValue E code opts
  if val.tag = JSTag.exception then (val, some (HostError.exceptionBridge E.pendingExc))
  else (val, none)

/-- The option list `EvalFile` forwards to `Eval`:
`opts = append(opts, EvalFileName(filePath))`. -/
def evalFileOptions (filePath : String) (opts : List EvalOption) : List EvalOption :=
  opts ++ [EvalFileName filePath]

/-- `func (ctx *Context) EvalFile(filePath string, opts ...EvalOption)`:
read the file (returning the read error unchanged with a null Value on
failure), append `EvalFileName(filePath)` to the options and delegate to
`Eval`.  The filesystem is modelled as a function from paths to
read results. -/
def ContextEvalFile (E : Engine) (fs : String → Except String String)
    (filePath : String) (opts : List EvalOption) : JSValue × Option HostError :=
  match fs filePath with
  | Except.error e => (nullValue, some (HostError.ioError e))
  | Except.ok b => ContextEval E b (evalFileOptions filePath opts)

/-- `func (ctx *Context) LoadModule(code string, moduleName string)`:
evaluate with `JS_EVAL_TYPE_MODULE | JS_EVAL_FLAG_COMPILE_ONLY`, then check
`ValueGetTag(cVal) != JS_TAG_MODULE` (there is no exception check before this
tag check), resolve the module, set import meta and await.  Import-meta setup
has no observable effect in this model. -/
def ContextLoadModule (E : Engine) (code : String) (moduleName : String) :
    JSValue × Option HostError :=
  let cFlag := JS_EVAL_TYPE_MODULE ||| JS_EVAL_FLAG_COMPILE_ONLY
  let cVal := E.jsEval code moduleName cFlag
  if cVal.tag ≠ JSTag.module then (nullValue, some HostError.notAModule)
  else if E.jsResolveModule cVal ≠ 0 then (nullValue, some HostError.resolveModuleFailed)
  else (E.jsStdAwait cVal, none)

/-- `func (ctx *Context) LoadModuleFile(filePath string, moduleName string)`:
read the file, returning the read error unchanged with a null Value on
failure, else delegate to `LoadModule`. -/
def ContextLoadModuleFile (E : Engine) (fs : String → Except String String)
    (filePath : String) (moduleName : String) : JSValue × Option HostError :=
  match fs filePath with
  | Except.error e => (nullValue, some (HostError.ioError e))
  | Except.ok b => ContextLoadModule E b moduleName

/-- `func (ctx *Context) LoadModuleBytecode(buf []byte)`: deserialize the
buffer, convert an exception-tagged result through the Exception Bridge,
then apply the same tag check / resolve / await sequence as `LoadModule`. -/
def ContextLoadModuleBytecode (E : Engine) (buf : List Nat) :
    JSValue × Option HostError :=
  let cVal := E.jsReadObject buf
  if cVal.tag = JSTag.exception then
    (nullValue, some (HostError.exceptionBridge E.pendingExc))
  else if cVal.tag ≠ JSTag.module then (nullValue, some HostError.notAModule)
  else if E.jsResolveModule cVal ≠ 0 then (nullValue, some HostError.resolveModuleFailed)
  else (E.jsStdAwait cVal, none)

/-- `func (ctx *Context) EvalBytecode(buf []byte)`: deserialize the buffer
(exception goes through the Exception Bridge), evaluate the deserialized
unit with `JS_EvalFunction` (exception again through the bridge). -/
def ContextEvalBytecode (E : Engine) (buf : List Nat) :
    JSValue × Option HostError :=
  let obj := E.jsReadObject buf
  if obj.tag = JSTag.exception then
    (obj, some (HostError.exceptionBridge E.pendingExc))
  else
    let val := E.jsEvalFunction obj
    if val.tag = JSTag.exception then
      (val, some (HostError.exceptionBridge E.pendingExc))
    else (val, none)

/-- `func (ctx *Context) Compile(code string, opts ...EvalOption)`:
append `EvalFlagCompileOnly(true)` to the options, evaluate, propagate an
eval error with a nil buffer; otherwise serialize the value with
`JS_WriteObject` and treat a non-positive size as an error surfaced through
the Exception Bridge, else return exactly `kSize` bytes read from the
written buffer.  A `none` first component models Go's nil byte slice. -/
def ContextCompile (E : Engine) (code : String) (opts : List EvalOption) :
    Option (List Nat) × Option HostError :=
  let opts := opts ++ [EvalFlagCompileOnly true]
  match ContextEval E code opts with
  | (_, some err) => (none, some err)
  | (val, none) =>
    let kSize := E.jsWriteObjectSize val
    if kSize ≤ 0 then (none, some (HostError.exceptionBridge E.pendingExc))
    else (some ((List.range kSize.toNat).map (E.jsWriteObjectMem val)), none)

/-- The option list `CompileFile` forwards to `Compile`: fold the caller's
options over the zero-valued `EvalOptions{}` and append
`EvalFileName(filePath)` only when the resulting filename is empty. -/
def compileFileOptions (filePath : String) (opts : List EvalOption) : List EvalOption :=
  if (applyOpts zeroOptions opts).filename = "" then opts ++ [EvalFileName filePath]
  else opts

/-- `func (ctx *Context) CompileFile(filePath string, opts ...EvalOption)`:
read the file, returning the read error unchanged with a nil buffer on
failure; default the filename option to the path only when the caller
supplied none, then delegate to `Compile`. -/
def ContextCompileFile (E : Engine) (fs : String → Except String String)
    (filePath : String) (opts : List EvalOption) : Option (List Nat) × Option HostError :=
  match fs filePath with
  | Except.error e => (none, some (HostError.ioError e))
  | Except.ok b => ContextCompile E b (compileFileOptions filePath opts)

/-- `func (ctx *Context) CompileModule(filePath, moduleName string, opts...)`:
append `EvalFileName(moduleName)` and delegate to `CompileFile`. -/
def ContextCompileModule (E : Engine) (fs : String → Except String String)
    (filePath : String) (moduleName : String) (opts : List EvalOption) :
    Option (List Nat) × Option HostError :=
  ContextCompileFile E fs filePath (opts ++ [EvalFileName moduleName])

/-- `func (ctx *Context) ArrayBuffer(binaryData []byte)`: takes
`&binaryData[0]` unconditionally.  Go's bounds check makes the indexing
panic on an empty slice, modelled as `none`; on a non-empty slice the
engine's `JS_NewArrayBufferCopy` value is returned. -/
def ContextArrayBuffer (E : Engine) (binaryData : List Nat) : Option JSValue :=
  match binaryData.get? 0 with
  | none => none
  | some _ => some (E.jsNewArrayBufferCopy binaryData)

/-- The mutable part of a `Context` relevant to the shim cache and handle
allocation: the three lazily-created cached Values, a counter of fresh
engine object payloads (used by `JS_NewCFunction` to produce new values),
and the `cgo.NewHandle` counter (handles are allocated from a process-wide
registry with fresh, never-reused tokens). -/
structure CtxState where
  globals : Option JSValue
  proxy : Option JSValue
  asyncProxy : Option JSValue
  nextObj : Nat
  nextHandle : Nat
deriving DecidableEq, Repr

/-- The result of one `Function`/`AsyncFunction` registration that the
invariant claims speak about: the updated context state, the shim Value the
registration used, and the two allocated handles. -/
structure RegResult where
  state : CtxState
  shimUsed : JSValue
  fnHandle : Nat
  ctxHandle : Nat
deriving DecidableEq, Repr

/-- `func (ctx *Context) Function(fn ...)`, restricted to its effect on the
context state: create and cache the sync proxy shim if absent
(`JS_NewCFunction(InvokeProxy)` yields a fresh object value), then allocate
a fresh `cgo` handle for the closure and a second for the context. -/
def ContextFunction (s : CtxState) : RegResult :=
  let (shim, s1) :=
    match s.proxy with
    | none =>
      let v : JSValue := ⟨JSTag.object, s.nextObj⟩
      (v, { s with proxy := some v, nextObj := s.nextObj + 1 })
    | some p => (p, s)
  let fnHandler := s1.nextHandle
  let ctxHandler := s1.nextHandle + 1
  { state := { s1 with nextHandle := s1.nextHandle + 2 }
    shimUsed := shim
    fnHandle := fnHandler
    ctxHandle := ctxHandler }

/-- `func (ctx *Context) AsyncFunction(asyncFn ...)`, restricted to its
effect on the context state: identical shape to `Function` but caching the
async proxy shim (`JS_NewCFunction(InvokeAsyncProxy)`). -/
def ContextAsyncFunction (s : CtxState) : RegResult :=
  let (shim, s1) :=
    match s.asyncProxy with
    | none =>
      let v : JSValue := ⟨JSTag.object, s.nextObj⟩
      (v, { s with asyncProxy := some v, nextObj := s.nextObj + 1 })
    | some p => (p, s)
  let fnHandler := s1.nextHandle
  let ctxHandler := s1.nextHandle + 1
  { state := { s1 with nextHandle := s1.nextHandle + 2 }
    shimUsed := shim
    fnHandle := fnHandler
    ctxHandle := ctxHandler }

/-- One observable action of `Context.Close`: freeing a cached Value or
freeing the foreign context reference. -/
inductive FreeAction where
  | freeValue (v : JSValue)
  | freeContext
deriving DecidableEq, Repr

/-- `func (ctx *Context) Close()`: free the proxy shim, the async proxy shim
and the globals Value, each only when it was created (non-nil), then free
the foreign context reference.  The trace lists the frees in program
order. -/
def ContextClose (s : CtxState) : List FreeAction :=
  (match s.proxy with
   | some p => [FreeAction.freeValue p]
   | none => []) ++
  (match s.asyncProxy with
   | some p => [FreeAction.freeValue p]
   | none => []) ++
  (match s.globals with
   | some g => [FreeAction.freeValue g]
   | none => []) ++
  [FreeAction.freeContext]

/-- A concrete engine behaviour in which source compilation/evaluation raises
an engine exception (e.g., a syntax error): `JS_Eval` and `JS_ReadObject`
return exception-tagged values, and the pending exception converts to the
message "SyntaxError". -/
def excEngine : Engine :=
  { jsEval := fun _ _ _ => ⟨JSTag.exception, 7⟩
    jsDetectModule := fun _ => false
    jsStdAwait := fun v => v
    jsResolveModule := fun _ => 0
    jsReadObject := fun _ => ⟨JSTag.exception, 8⟩
    jsEvalFunction := fun v => v
    jsWriteObjectSize := fun _ => 0
    jsWriteObjectMem := fun _ _ => 0
    jsNewArrayBufferCopy := fun _ => ⟨JSTag.object, 9⟩
    pendingExc := "SyntaxError" }

/-- A concrete engine behaviour in which everything succeeds: evaluation
yields a number value, module detection fires, deserialization yields a
module record, and serialization writes 4 bytes. -/
def okEngine : Engine :=
  { jsEval := fun _ _ _ => ⟨JSTag.number, 2⟩
    jsDetectModule := fun _ => true
    jsStdAwait := fun v => v
    jsResolveModule := fun _ => 0
    jsReadObject := fun _ => ⟨JSTag.module, 3⟩
    jsEvalFunction := fun v => v
    jsWriteObjectSize := fun _ => 4
    jsWriteObjectMem := fun _ i => i
    jsNewArrayBufferCopy := fun _ => ⟨JSTag.object, 9⟩
    pendingExc := "" }

/-- A concrete engine behaviour that records, in the payload of the returned
value, the length of the filename string that `JS_Eval` was given — used to
observe which filename the pipeline actually passed down. -/
def obsEngine : Engine :=
  { jsEval := fun _ filename _ => ⟨JSTag.string, filename.length⟩
    jsDetectModule := fun _ => false
    jsStdAwait := fun v => v
    jsResolveModule := fun _ => 0
    jsReadObject := fun _ => ⟨JSTag.module, 3⟩
    jsEvalFunction := fun v => v
    jsWriteObjectSize := fun _ => 4
    jsWriteObjectMem := fun _ i => i
    jsNewArrayBufferCopy := fun _ => ⟨JSTag.object, 9⟩
    pendingExc := "" }

/-- C2: for every engine behaviour, code string and option list, `Eval`
returns a non-nil error iff the result Value is exception-tagged; in that
case the error is the pending exception converted through the Exception
Bridge (and the exception-tagged Value is the returned first component). -/
theorem eval_error_iff_exception (E : Engine) (code : String) (opts : List EvalOption) :
    ((ContextEval E code opts).2.isSome ↔
      (ContextEval E code opts).1.tag = JSTag.exception) ∧
    ((ContextEval E code opts).1.tag = JSTag.exception →
      (ContextEval E code opts).2 = some (HostError.exceptionBridge E.pendingExc)) := by
  unfold ContextEval
  by_cases h : (evalRawValue E code opts).tag = JSTag.exception <;> simp [h]

/-- C2 witness: on the exception-raising engine, `Eval` returns the
Exception Bridge error for the pending "SyntaxError". -/
theorem eval_error_iff_exception_witness :
    (ContextEval excEngine "throw x" []).2 =
      some (HostError.exceptionBridge "SyntaxError") :=
  (eval_error_iff_exception excEngine "throw x" []).2 rfl

/-- C5: whenever module syntax is detected in the source, the flag word the
evaluation passes to the engine has the module-type bit (bit 0,
`JS_EVAL_TYPE_MODULE`) set — regardless of what the options requested — and
every other bit is exactly as derived from the requested options. -/
theorem eval_detect_forces_module (E : Engine) (code : String) (o : EvalOptions)
    (h : E.jsDetectModule code = true) :
    (evalEffectiveFlag E code o).testBit 0 = true ∧
    ∀ i, i ≠ 0 → (evalEffectiveFlag E code o).testBit i = (evalFlags o).testBit i := by
  unfold evalEffectiveFlag
  rw [h]
  simp only [if_true, JS_EVAL_TYPE_MODULE]
  constructor
  · simp [Nat.testBit_lor]
  · intro i hi
    rw [Nat.testBit_lor]
    rcases i with _ | j
    · exact absurd rfl hi
    · simp [Nat.testBit_succ, Nat.zero_testBit]

/-- C5 witness: with an always-detecting engine and the default options
(which do not request module type), the effective flag has the module bit. -/
theorem eval_detect_forces_module_witness :
    (evalEffectiveFlag okEngine "export value" evalDefaults).testBit 0 = true :=
  (eval_detect_forces_module okEngine "export value" evalDefaults rfl).1

/-- C1 counterexample: with an engine whose module-compile step produces an
exception-tagged value (e.g., a syntax error), `LoadModule` returns the
"not a module" shape error, not the Exception Bridge error, because its tag
check precedes any exception check. -/
theorem loadModule_exception_not_bridged :
    (excEngine.jsEval "syntax error here" "m"
        (JS_EVAL_TYPE_MODULE ||| JS_EVAL_FLAG_COMPILE_ONLY)).tag = JSTag.exception ∧
    ContextLoadModule excEngine "syntax error here" "m" =
      (nullValue, some HostError.notAModule) ∧
    (some HostError.notAModule : Option HostError) ≠
      some (HostError.exceptionBridge excEngine.pendingExc) :=
  ⟨rfl, rfl, by decide⟩

/-- C1 amended: in `LoadModule` the tag check comes first, so any compile
result whose tag is not the module tag — exception-tagged values included —
yields the "not a module" shape error without consulting the Exception
Bridge; in `LoadModuleBytecode` the exception check precedes the tag check,
so exception-tagged read results are converted through the Exception Bridge
and "not a module" is returned only for non-exception values whose tag is
not the module tag. -/
theorem loadModule_tag_check_precedes (E : Engine) (code moduleName : String)
    (buf : List Nat) :
    ((E.jsEval code moduleName (JS_EVAL_TYPE_MODULE ||| JS_EVAL_FLAG_COMPILE_ONLY)).tag
        ≠ JSTag.module →
      ContextLoadModule E code moduleName = (nullValue, some HostError.notAModule)) ∧
    ((E.jsReadObject buf).tag = JSTag.exception →
      ContextLoadModuleBytecode E buf =
        (nullValue, some (HostError.exceptionBridge E.pendingExc))) ∧
    ((E.jsReadObject buf).tag ≠ JSTag.exception →
      (E.jsReadObject buf).tag ≠ JSTag.module →
      ContextLoadModuleBytecode E buf = (nullValue, some HostError.notAModule)) := by
  refine ⟨fun h => ?_, fun h => ?_, fun h1 h2 => ?_⟩
  · simp [ContextLoadModule, h]
  · simp [ContextLoadModuleBytecode, h]
  · simp [ContextLoadModuleBytecode, h1, h2]

/-- C1 amended witness: on the exception-raising engine, `LoadModule`
reports the shape error while `LoadModuleBytecode` reports the bridged
exception. -/
theorem loadModule_tag_check_precedes_witness :
    ContextLoadModule excEngine "syntax error" "m" =
      (nullValue, some HostError.notAModule) ∧
    ContextLoadModuleBytecode excEngine [0, 1] =
      (nullValue, some (HostError.exceptionBridge "SyntaxError")) :=
  ⟨(loadModule_tag_check_precedes excEngine "syntax error" "m" [0, 1]).1 (by decide),
   (loadModule_tag_check_precedes excEngine "syntax error" "m" [0, 1]).2.1 rfl⟩

/-- C4 counterexample: `EvalFile` appends the path-derived filename option
after the caller's options, so a caller-supplied filename is overridden by
the file path.  Observed both through the options actually applied and
through an engine that reports the filename length it received: with path
"p.js" (length 4) and caller filename "custom" (length 6), the engine sees
the path. -/
theorem evalFile_filename_overridden :
    (applyOpts evalDefaults (evalFileOptions "p.js" [EvalFileName "custom"])).filename
      = "p.js" ∧
    ("p.js" : String) ≠ "custom" ∧
    (ContextEvalFile obsEngine (fun _ => Except.ok "1+1") "p.js"
        [EvalFileName "custom"]).1.payload = 4 ∧
    "p.js".length = 4 ∧ "custom".length = 6 :=
  ⟨rfl, by decide, rfl, rfl, rfl⟩

/-- C4 amended: the file path is the effective filename in different ways for
the two functions.  `CompileFile` uses the path only as a default: when the
caller's options produce a non-empty filename the forwarded options are
unchanged (the caller's filename wins), and only when they produce the empty
filename is the path appended and used.  `EvalFile`, by contrast, always
appends the path after the caller's options, so the path is the filename
used regardless of any caller-supplied filename option. -/
theorem file_filename_default_policy (path : String) (opts : List EvalOption) :
    (applyOpts evalDefaults (evalFileOptions path opts)).filename = path ∧
    ((applyOpts zeroOptions opts).filename ≠ "" →
      compileFileOptions path opts = opts) ∧
    ((applyOpts zeroOptions opts).filename = "" →
      (applyOpts evalDefaults (compileFileOptions path opts)).filename = path) := by
  refine ⟨?_, fun h => ?_, fun h => ?_⟩
  · simp [applyOpts, evalFileOptions, List.foldl_append, EvalFileName]
  · simp [compileFileOptions, h]
  · unfold compileFileOptions
    rw [if_pos h]
    simp [applyOpts, List.foldl_append, EvalFileName]

/-- C4 amended witness: a caller filename "c" survives `CompileFile`'s
defaulting, while `EvalFile` forces the path "p.js". -/
theorem file_filename_default_policy_witness :
    compileFileOptions "p.js" [EvalFileName "c"] = [EvalFileName "c"] ∧
    (applyOpts evalDefaults (evalFileOptions "p.js" [EvalFileName "c"])).filename
      = "p.js" :=
  ⟨(file_filename_default_policy "p.js" [EvalFileName "c"]).2.1 (by decide),
   (file_filename_default_policy "p.js" [EvalFileName "c"]).1⟩

/-- C7: `Compile` forces the compile-only flag (appended last, so it wins
over any caller setting); when the forced evaluation succeeds, a
non-positive serialized size yields a nil buffer together with the pending
exception converted through the Exception Bridge, and a positive size
yields a buffer of exactly that many bytes with a nil error. -/
theorem compile_flow (E : Engine) (code : String) (opts : List EvalOption) :
    (applyOpts evalDefaults
        (opts ++ [EvalFlagCompileOnly true])).js_eval_flag_compile_only = true ∧
    ((ContextEval E code (opts ++ [EvalFlagCompileOnly true])).2 = none →
      (E.jsWriteObjectSize
          (ContextEval E code (opts ++ [EvalFlagCompileOnly true])).1 ≤ 0 →
        ContextCompile E code opts =
          (none, some (HostError.exceptionBridge E.pendingExc))) ∧
      (0 < E.jsWriteObjectSize
          (ContextEval E code (opts ++ [EvalFlagCompileOnly true])).1 →
        ∃ buf, ContextCompile E code opts = (some buf, none) ∧
          buf.length = (E.jsWriteObjectSize
            (ContextEval E code (opts ++ [EvalFlagCompileOnly true])).1).toNat)) := by
  constructor
  · simp [applyOpts, List.foldl_append, EvalFlagCompileOnly]
  · intro hok
    rcases hEval : ContextEval E code (opts ++ [EvalFlagCompileOnly true]) with ⟨val, err⟩
    rw [hEval] at hok
    replace hok : err = none := hok
    subst hok
    constructor
    · intro hsz
      replace hsz : E.jsWriteObjectSize val ≤ 0 := hsz
      simp [ContextCompile, hEval, hsz]
    · intro hsz
      replace hsz : 0 < E.jsWriteObjectSize val := hsz
      refine ⟨(List.range (E.jsWriteObjectSize val).toNat).map (E.jsWriteObjectMem val),
        ?_, by simp⟩
      simp [ContextCompile, hEval, not_le.mpr hsz]

/-- C7 witness: on the succeeding engine (serialized size 4), `Compile`
returns the four bytes of the written buffer and no error. -/
theorem compile_flow_witness :
    ∃ buf, ContextCompile okEngine "1+1" [] = (some buf, none) ∧ buf.length = 4 := by
  have h := (compile_flow okEngine "1+1" []).2 rfl
  rcases h.2 (by decide) with ⟨buf, hbuf, hlen⟩
  exact ⟨buf, hbuf, hlen⟩

/-- C9: when the file read fails, `EvalFile`, `CompileFile` and
`LoadModuleFile` each return the underlying read error unchanged — with a
null Value for the first and last and a nil buffer for `CompileFile` — and
perform no engine call at all: the result is the same under every engine
behaviour. -/
theorem file_read_error_passthrough (E E2 : Engine)
    (fs : String → Except String String) (path : String)
    (opts : List EvalOption) (moduleName : String) (e : String)
    (h : fs path = Except.error e) :
    ContextEvalFile E fs path opts = (nullValue, some (HostError.ioError e)) ∧
    ContextEvalFile E fs path opts = ContextEvalFile E2 fs path opts ∧
    ContextCompileFile E fs path opts = (none, some (HostError.ioError e)) ∧
    ContextCompileFile E fs path opts = ContextCompileFile E2 fs path opts ∧
    ContextLoadModuleFile E fs path moduleName =
      (nullValue, some (HostError.ioError e)) ∧
    ContextLoadModuleFile E fs path moduleName =
      ContextLoadModuleFile E2 fs path moduleName := by
  refine ⟨?_, ?_, ?_, ?_, ?_, ?_⟩ <;>
    simp [ContextEvalFile, ContextCompileFile, ContextLoadModuleFile, h]

/-- C9 witness: a failing filesystem read propagates its error through all
three file-based entry points, identically under the succeeding and the
exception-raising engine. -/
theorem file_read_error_passthrough_witness :
    ContextEvalFile okEngine (fun _ => Except.error "ENOENT") "a.js" [] =
      (nullValue, some (HostError.ioError "ENOENT")) ∧
    ContextLoadModuleFile okEngine (fun _ => Except.error "ENOENT") "a.js" "m" =
      ContextLoadModuleFile excEngine (fun _ => Except.error "ENOENT") "a.js" "m" := by
  have h := file_read_error_passthrough okEngine excEngine
    (fun _ => Except.error "ENOENT") "a.js" [] "m" "ENOENT" rfl
  exact ⟨h.1, h.2.2.2.2.2⟩

/-- C10: `ArrayBuffer` takes the address of element 0 of its input
unconditionally, so a non-empty slice is in bounds and produces the engine's
copied buffer value, while the empty slice panics (no Value is produced). -/
theorem arrayBuffer_requires_nonempty (E : Engine) (binaryData : List Nat) :
    (binaryData ≠ [] →
      ContextArrayBuffer E binaryData = some (E.jsNewArrayBufferCopy binaryData)) ∧
    ContextArrayBuffer E [] = none := by
  constructor
  · intro h
    cases binaryData with
    | nil => exact absurd rfl h
    | cons b rest => rfl
  · rfl

/-- C10 witness: a three-byte buffer is accepted and yields the engine's
copy value. -/
theorem arrayBuffer_requires_nonempty_witness :
    ContextArrayBuffer okEngine [1, 2, 3] =
      some (okEngine.jsNewArrayBufferCopy [1, 2, 3]) :=
  (arrayBuffer_requires_nonempty okEngine [1, 2, 3]).1 (by decide)

/-- One registration step of `Function`, viewed as a state transformer. -/
def funcStep (s : CtxState) : CtxState := (ContextFunction s).state

/-- One registration step of `AsyncFunction`, viewed as a state transformer. -/
def asyncFuncStep (s : CtxState) : CtxState := (ContextAsyncFunction s).state

lemma funcStep_proxy_preserved (s : CtxState) (p : JSValue) (h : s.proxy = some p) :
    (funcStep s).proxy = some p := by
  simp [funcStep, ContextFunction, h]

lemma funcStep_proxy_isSome (s : CtxState) : (funcStep s).proxy.isSome := by
  cases h : s.proxy <;> simp [funcStep, ContextFunction, h]

lemma asyncFuncStep_asyncProxy_preserved (s : CtxState) (p : JSValue)
    (h : s.asyncProxy = some p) : (asyncFuncStep s).asyncProxy = some p := by
  simp [asyncFuncStep, ContextAsyncFunction, h]

lemma asyncFuncStep_asyncProxy_isSome (s : CtxState) :
    (asyncFuncStep s).asyncProxy.isSome := by
  cases h : s.asyncProxy <;> simp [asyncFuncStep, ContextAsyncFunction, h]

lemma funcStep_iterate_proxy (n : Nat) (s : CtxState) :
    (funcStep^[n] (funcStep s)).proxy = (funcStep s).proxy := by
  induction n generalizing s with
  | zero => rfl
  | succ k ih =>
    rw [Function.iterate_succ_apply, ih (funcStep s)]
    cases h : (funcStep s).proxy with
    | none => simpa [h] using funcStep_proxy_isSome s
    | some p => exact funcStep_proxy_preserved _ p h

lemma asyncFuncStep_iterate_asyncProxy (n : Nat) (s : CtxState) :
    (asyncFuncStep^[n] (asyncFuncStep s)).asyncProxy = (asyncFuncStep s).asyncProxy := by
  induction n generalizing s with
  | zero => rfl
  | succ k ih =>
    rw [Function.iterate_succ_apply, ih (asyncFuncStep s)]
    cases h : (asyncFuncStep s).asyncProxy with
    | none => simpa [h] using asyncFuncStep_asyncProxy_isSome s
    | some p => exact asyncFuncStep_asyncProxy_preserved _ p h

/-- C3: for `Function` (and, in the mirrored conjuncts, `AsyncFunction`):
a registration on a context without a cached shim creates and caches it;
a registration on a context with a cached shim uses exactly the cached one
and leaves the cache unchanged — hence over any sequence of registrations
the cache after the first step never changes again (so the shim is created
at most once); and every registration allocates two fresh handles, the
closure handle and the context handle, advancing the handle counter by two. -/
theorem function_shim_once_handles_fresh (s : CtxState) (n : Nat) :
    (s.proxy = none →
      (ContextFunction s).state.proxy = some (ContextFunction s).shimUsed) ∧
    (∀ p, s.proxy = some p →
      (ContextFunction s).shimUsed = p ∧ (ContextFunction s).state.proxy = some p) ∧
    (funcStep^[n + 1] s).proxy = (funcStep s).proxy ∧
    (ContextFunction s).fnHandle = s.nextHandle ∧
    (ContextFunction s).ctxHandle = s.nextHandle + 1 ∧
    (ContextFunction s).fnHandle ≠ (ContextFunction s).ctxHandle ∧
    (ContextFunction s).state.nextHandle = s.nextHandle + 2 ∧
    (s.asyncProxy = none →
      (ContextAsyncFunction s).state.asyncProxy =
        some (ContextAsyncFunction s).shimUsed) ∧
    (∀ p, s.asyncProxy = some p →
      (ContextAsyncFunction s).shimUsed = p ∧
      (ContextAsyncFunction s).state.asyncProxy = some p) ∧
    (asyncFuncStep^[n + 1] s).asyncProxy = (asyncFuncStep s).asyncProxy ∧
    (ContextAsyncFunction s).fnHandle = s.nextHandle ∧
    (ContextAsyncFunction s).ctxHandle = s.nextHandle + 1 ∧
    (ContextAsyncFunction s).fnHandle ≠ (ContextAsyncFunction s).ctxHandle ∧
    (ContextAsyncFunction s).state.nextHandle = s.nextHandle + 2 := by
  refine ⟨fun h => ?_, fun p h => ?_, ?_, ?_, ?_, ?_, ?_,
    fun h => ?_, fun p h => ?_, ?_, ?_, ?_, ?_, ?_⟩
  · simp [ContextFunction, h]
  · simp [ContextFunction, h]
  · rw [Function.iterate_succ_apply]
    exact funcStep_iterate_proxy n s
  · cases h : s.proxy <;> simp [ContextFunction, h]
  · cases h : s.proxy <;> simp [ContextFunction, h]
  · cases h : s.proxy <;> simp [ContextFunction, h]
  · cases h : s.proxy <;> simp [ContextFunction, h]
  · simp [ContextAsyncFunction, h]
  · simp [ContextAsyncFunction, h]
  · rw [Function.iterate_succ_apply]
    exact asyncFuncStep_iterate_asyncProxy n s
  · cases h : s.asyncProxy <;> simp [ContextAsyncFunction, h]
  · cases h : s.asyncProxy <;> simp [ContextAsyncFunction, h]
  · cases h : s.asyncProxy <;> simp [ContextAsyncFunction, h]
  · cases h : s.asyncProxy <;> simp [ContextAsyncFunction, h]

/-- C3 witness: on a fresh context state, the first `Function` registration
installs the shim into the cache and allocates handles 0 and 1. -/
theorem function_shim_once_handles_fresh_witness :
    (ContextFunction ⟨none, none, none, 0, 0⟩).state.proxy =
      some (ContextFunction ⟨none, none, none, 0, 0⟩).shimUsed ∧
    (ContextFunction ⟨none, none, none, 0, 0⟩).fnHandle ≠
      (ContextFunction ⟨none, none, none, 0, 0⟩).ctxHandle := by
  have h := function_shim_once_handles_fresh ⟨none, none, none, 0, 0⟩ 0
  exact ⟨h.1 rfl, h.2.2.2.2.2.1⟩

lemma close_count_freeValue (s : CtxState) (v : JSValue) :
    (ContextClose s).count (FreeAction.freeValue v) =
      ((if s.proxy = some v then 1 else 0) + (if s.asyncProxy = some v then 1 else 0))
        + (if s.globals = some v then 1 else 0) := by
  unfold ContextClose
  rcases s.proxy with _ | p <;> rcases s.asyncProxy with _ | a <;>
    rcases s.globals with _ | g <;>
  simp [List.count_append, List.count_cons, List.count_singleton, List.count_nil,
    beq_iff_eq] <;>
  split_ifs <;> omega

lemma close_count_freeContext (s : CtxState) :
    (ContextClose s).count FreeAction.freeContext = 1 := by
  unfold ContextClose
  rcases s.proxy with _ | p <;> rcases s.asyncProxy with _ | a <;>
    rcases s.globals with _ | g <;>
  simp [List.count_append, List.count_cons, List.count_singleton]

lemma close_getLast (s : CtxState) :
    (ContextClose s).getLast? = some FreeAction.freeContext := by
  unfold ContextClose
  rw [List.getLast?_concat]

/-- C6: `Close` frees each of the three lazily-created cached Values
(proxy shim, async proxy shim, global object) exactly once each when they
were created, frees nothing that was never created (every freed Value is
one of the cached ones, and a nil slot contributes no free), frees the
foreign context reference exactly once, and does so last. -/
theorem close_frees_cached_values_once (s : CtxState)
    (hpa : ∀ p a, s.proxy = some p → s.asyncProxy = some a → p ≠ a)
    (hpg : ∀ p g, s.proxy = some p → s.globals = some g → p ≠ g)
    (hag : ∀ a g, s.asyncProxy = some a → s.globals = some g → a ≠ g) :
    (∀ p, s.proxy = some p →
      (ContextClose s).count (FreeAction.freeValue p) = 1) ∧
    (∀ a, s.asyncProxy = some a →
      (ContextClose s).count (FreeAction.freeValue a) = 1) ∧
    (∀ g, s.globals = some g →
      (ContextClose s).count (FreeAction.freeValue g) = 1) ∧
    (∀ v, FreeAction.freeValue v ∈ ContextClose s →
      s.proxy = some v ∨ s.asyncProxy = some v ∨ s.globals = some v) ∧
    (ContextClose s).count FreeAction.freeContext = 1 ∧
    (ContextClose s).getLast? = some FreeAction.freeContext := by
  refine ⟨fun p hp => ?_, fun a ha => ?_, fun g hg => ?_, fun v hv => ?_,
    close_count_freeContext s, close_getLast s⟩
  · have ha : s.asyncProxy ≠ some p := fun h => hpa p p hp h rfl
    have hg : s.globals ≠ some p := fun h => hpg p p hp h rfl
    rw [close_count_freeValue]
    simp [hp, ha, hg]
  · have hp : s.proxy ≠ some a := fun h => hpa a a h ha rfl
    have hg : s.globals ≠ some a := fun h => hag a a ha h rfl
    rw [close_count_freeValue]
    simp [hp, ha, hg]
  · have hp : s.proxy ≠ some g := fun h => hpg g g h hg rfl
    have ha : s.asyncProxy ≠ some g := fun h => hag g g h hg rfl
    rw [close_count_freeValue]
    simp [hp, ha, hg]
  · by_contra hcon
    push_neg at hcon
    have hcount := close_count_freeValue s v
    rw [if_neg hcon.1, if_neg hcon.2.1, if_neg hcon.2.2] at hcount
    have hpos : 0 < (ContextClose s).count (FreeAction.freeValue v) :=
      List.count_pos_iff.mpr hv
    omega

/-- C6 witness: with all three cached Values created and pairwise distinct,
each is freed exactly once and the context reference is freed last. -/
theorem close_frees_cached_values_once_witness :
    (ContextClose ⟨some ⟨JSTag.object, 1⟩, some ⟨JSTag.object, 2⟩,
        some ⟨JSTag.object, 3⟩, 4, 0⟩).count
      (FreeAction.freeValue ⟨JSTag.object, 2⟩) = 1 ∧
    (ContextClose ⟨some ⟨JSTag.object, 1⟩, some ⟨JSTag.object, 2⟩,
        some ⟨JSTag.object, 3⟩, 4, 0⟩).getLast? = some FreeAction.freeContext := by
  have h := close_frees_cached_values_once
    ⟨some ⟨JSTag.object, 1⟩, some ⟨JSTag.object, 2⟩, some ⟨JSTag.object, 3⟩, 4, 0⟩
    (by intro p a hp ha; simp at hp ha; subst hp; subst ha; decide)
    (by intro p g hp hg; simp at hp hg; subst hp; subst hg; decide)
    (by intro a g ha hg; simp at ha hg; subst ha; subst hg; decide)
  exact ⟨h.1 ⟨JSTag.object, 2⟩ rfl, h.2.2.2.2.2⟩

/-- C8: with an empty option list the effective options of `Eval` are the
documented defaults (global scope, non-module, non-strict, no strip, not
compile-only, filename the input placeholder, no await); and appending any
single mutator to an arbitrary option list overrides exactly its own field
of whatever the earlier options produced, leaving every other field
unchanged — so the options compose independently. -/
theorem evalOptions_defaults_independent (opts : List EvalOption) (b : Bool)
    (f : String) :
    applyOpts evalDefaults [] =
      { js_eval_type_global := true
        js_eval_type_module := false
        js_eval_flag_strict := false
        js_eval_flag_strip := false
        js_eval_flag_compile_only := false
        filename := "<input>"
        await := false } ∧
    applyOpts evalDefaults (opts ++ [EvalFlagGlobal b]) =
      { applyOpts evalDefaults opts with js_eval_type_global := b } ∧
    applyOpts evalDefaults (opts ++ [EvalFlagModule b]) =
      { applyOpts evalDefaults opts with js_eval_type_module := b } ∧
    applyOpts evalDefaults (opts ++ [EvalFlagStrict b]) =
      { applyOpts evalDefaults opts with js_eval_flag_strict := b } ∧
    applyOpts evalDefaults (opts ++ [EvalFlagStrip b]) =
      { applyOpts evalDefaults opts with js_eval_flag_strip := b } ∧
    applyOpts evalDefaults (opts ++ [EvalFlagCompileOnly b]) =
      { applyOpts evalDefaults opts with js_eval_flag_compile_only := b } ∧
    applyOpts evalDefaults (opts ++ [EvalFileName f]) =
      { applyOpts evalDefaults opts with filename := f } ∧
    applyOpts evalDefaults (opts ++ [EvalAwait b]) =
      { applyOpts evalDefaults opts with await := b } := by
  refine ⟨rfl, ?_, ?_, ?_, ?_, ?_, ?_, ?_⟩ <;>
    simp [applyOpts, List.foldl_append, EvalFlagGlobal, EvalFlagModule,
      EvalFlagStrict, EvalFlagStrip, EvalFlagCompileOnly, EvalFileName, EvalAwait]

end QuickJS
